import Mathlib

/-!
Shallow embedding of the core of the `violet` reverse-proxy gateway:
  * `utils/domain-utils.go` — pure host-string utilities,
  * `router/router.go` — the host/path dispatch table and its wildcard fallback,
  * `favicons/favicons.go` — the favicon provider's rebuild (`threadCompile`)
    and read (`GetIcons`) operations.

Go strings are modelled as Lean `String`s; the separators searched for by the
code (`'.'`, `':'`) are single ASCII bytes, so Go's byte-index splitting and
Lean's character-level splitting agree on every valid UTF-8 input, and the
splitting primitives below are written at the character level.

Go machine integers (`int`, 64-bit) are modelled as Lean `Int` with the
explicit clamping bounds of `strconv.Atoi` where overflow matters.
-/

namespace Violet

/-- Model of Go `strings.SplitN(s, sep, 2)` for a one-byte separator:
if the separator occurs, the list `[before-first-sep, after-first-sep]`;
otherwise the singleton `[s]`. -/
def goSplitN2 (sep : Char) (s : String) : List String :=
  if sep ∈ s.toList then
    [(s.toList.takeWhile (· ≠ sep)).asString,
     ((s.toList.dropWhile (· ≠ sep)).drop 1).asString]
  else [s]

/-- Model of Go `strings.Split(s, sep)` for a one-byte separator, at the
character-list level: splits at every occurrence of `sep`; the empty string
yields `[[]]`, i.e. Go's `[""]`. -/
def splitCharList (sep : Char) : List Char → List (List Char)
  | [] => [[]]
  | c :: rest =>
    if c = sep then [] :: splitCharList sep rest
    else
      match splitCharList sep rest with
      | [] => [[c]]
      | g :: gs => (c :: g) :: gs

/-- Model of Go `strings.Split(s, sep)` for a one-byte separator. -/
def goSplit (sep : Char) (s : String) : List String :=
  (splitCharList sep s.toList).map List.asString

/-- Model of Go `strings.Join(xs, sep)`. -/
def goJoin (xs : List String) (sep : String) : String :=
  String.intercalate sep xs

/-- Decimal value of a nonempty all-digit character list, `none` if the list
is empty or contains a non-digit (Go `strconv`'s syntax-error condition for
base 10). -/
def digitsVal? (l : List Char) : Option Nat :=
  if l = [] then none
  else l.foldl (fun acc c =>
    match acc with
    | none => none
    | some n => if c.isDigit then some (n * 10 + (c.toNat - '0'.toNat)) else none)
    (some 0)

/-- Model of Go `strconv.Atoi` on a 64-bit platform: optional leading sign,
then decimal digits; returns `(value, err == nil)`. A syntax error yields
`(0, false)`; an out-of-range value is clamped to the `int64` bounds and
reported as an error, exactly as `strconv.ParseInt(s, 10, 0)` does. -/
def goAtoi (s : String) : Int × Bool :=
  let signDigits : Bool × List Char :=
    match s.toList with
    | '-' :: rest => (true, rest)
    | '+' :: rest => (false, rest)
    | l => (false, l)
  match digitsVal? signDigits.2 with
  | none => (0, false)
  | some n =>
    let v : Int := if signDigits.1 then -(n : Int) else (n : Int)
    if v < -(2 ^ 63) then (-(2 ^ 63), false)
    else if v > 2 ^ 63 - 1 then (2 ^ 63 - 1, false)
    else (v, true)

/-- Embedding of `utils.SplitDomainPort` (`utils/domain-utils.go`):
`a := strings.SplitN(host, ":", 2)`; two pieces parse the second as the port
with `strconv.Atoi`, one piece uses the default port; the `default` case of
the Go `switch` leaves the named results at their zero values. -/
def SplitDomainPort (host : String) (defaultPort : Int) : String × Int × Bool :=
  match goSplitN2 ':' host with
  | [d, p] =>
    let r := goAtoi p
    (d, r.1, r.2)
  | [d] => (d, defaultPort, true)
  | _ => ("", 0, false)

/-- Embedding of `utils.GetDomainWithoutPort` (`utils/domain-utils.go`):
`a := strings.SplitN(domain, ":", 2)`; length 2 returns `(a[0], true)`,
length 0 returns `("", false)`, otherwise `(a[0], true)`. -/
def GetDomainWithoutPort (domain : String) : String × Bool :=
  let a := goSplitN2 ':' domain
  if a.length = 2 then (a.headD "", true)
  else if a.length = 0 then ("", false)
  else (a.headD "", true)

/-- Embedding of `utils.GetBaseDomain` (`utils/domain-utils.go`):
`a := strings.SplitN(domain, ".", 2)`; length 2 returns `(a[1], true)`,
length 1 returns `(a[0], true)`, otherwise `("", false)`. -/
def GetBaseDomain (domain : String) : String × Bool :=
  let a := goSplitN2 '.' domain
  if a.length = 2 then (a.getD 1 "", true)
  else if a.length = 1 then (a.headD "", true)
  else ("", false)

/-- Embedding of `utils.ReplaceSubdomainWithWildcard`
(`utils/domain-utils.go`): `"*." + GetBaseDomain(domain)`. -/
def ReplaceSubdomainWithWildcard (domain : String) : String × Bool :=
  let ab := GetBaseDomain domain
  ("*." ++ ab.1, ab.2)

/-- Embedding of `utils.GetTopFqdn` (`utils/domain-utils.go`):
`a := strings.Split(domain, ".")`; at least two labels join the last two with
a dot, exactly one label returns the whole `domain`, otherwise `("", false)`. -/
def GetTopFqdn (domain : String) : String × Bool :=
  let a := goSplit '.' domain
  let l := a.length
  if l ≥ 2 then (goJoin (a.drop (l - 2)) ".", true)
  else if l = 1 then (domain, true)
  else ("", false)

/-- Association-list lookup, modelling a read `m[k]` of a Go map (returns the
zero value `nil`, i.e. `none`, when the key is absent). -/
def alistGet? {α : Type} (m : List (String × α)) (k : String) : Option α :=
  (m.find? (fun e => e.1 == k)).map (·.2)

/-- Association-list update, modelling a write `m[k] = v` of a Go map. -/
def alistSet {α : Type} (m : List (String × α)) (k : String) (v : α) : List (String × α) :=
  match m with
  | [] => [(k, v)]
  | (k', v') :: rest =>
    if k' == k then (k', v) :: rest else (k', v') :: alistSet rest k v

/-- Whether `p` is an initial segment of `l`, by character comparison. -/
def charsStartWith (p l : List Char) : Bool :=
  match p, l with
  | [], _ => true
  | _ :: _, [] => false
  | a :: p', b :: l' => a == b && charsStartWith p' l'

/-- Model of Go `strings.HasPrefix(s, pre)`. -/
def goStartsWith (s pre : String) : Bool :=
  charsStartWith pre.toList s.toList

/-- A request as seen by `Router.ServeHTTP`: `req.Host`, `req.Method` and
`req.URL.Path`. -/
structure Request where
  host : String
  method : String
  path : String
deriving DecidableEq, Repr

/-- Targets (`target.Route`, `target.Redirect`) are opaque handler
capabilities; the dispatch logic only selects and invokes them, so they are
modelled by abstract identifiers. -/
abbrev Target := Nat

/-- Model of a `julienschmidt/httprouter` per-host path router, restricted to
the literal (parameter-free) patterns the claims quantify over: a table of
`(method, path) ↦ handler` registrations with exact-match lookup. -/
abbrev PathRouter := List ((String × String) × Target)

/-- Model of `httprouter.Router.Handler(method, path, handle)` for a literal
path: record the registration. -/
def prHandle (h : PathRouter) (method path : String) (t : Target) : PathRouter :=
  h ++ [((method, path), t)]

/-- Model of `httprouter.Router.Lookup(method, path)` for literal
registrations: the handler registered under exactly `(method, path)`, if
any. -/
def prLookup (h : PathRouter) (method path : String) : Option Target :=
  (h.find? (fun e => e.1.1 == method && e.1.2 == path)).map (·.2)

/-- Embedding of `router.Router` (`router/router.go`): the `route` and
`redirect` host tables. The `notFound` handler and the reverse proxy are
modelled separately (`notFoundHandler`); dispatch reports which handler was
invoked through `Outcome`. -/
structure Router where
  route : List (String × PathRouter)
  redirect : List (String × PathRouter)
deriving DecidableEq, Repr

/-- Embedding of `router.New()`: empty route and redirect tables. -/
def RouterNew : Router := ⟨[], []⟩

/-- Embedding of `Router.hostRoute`: the per-host route path-router, a fresh
empty one when the host has none yet. -/
def hostRoute (r : Router) (host : String) : PathRouter :=
  (alistGet? r.route host).getD []

/-- Embedding of `Router.hostRedirect`: the per-host redirect path-router, a
fresh empty one when the host has none yet. -/
def hostRedirect (r : Router) (host : String) : PathRouter :=
  (alistGet? r.redirect host).getD []

/-- Embedding of `Router.AddRoute`: prefix the path with `/` when it does not
start with one, then register the target under `http.MethodGet` in the
host's route path-router. -/
def AddRoute (r : Router) (host path : String) (t : Target) : Router :=
  let path := if goStartsWith path "/" then path else "/" ++ path
  { r with route := alistSet r.route host (prHandle (hostRoute r host) "GET" path t) }

/-- Embedding of `Router.AddRedirect`: prefix the path with `/` when it does
not start with one, then register the target under `http.MethodGet` in the
host's redirect path-router. -/
def AddRedirect (r : Router) (host path : String) (t : Target) : Router :=
  let path := if goStartsWith path "/" then path else "/" ++ path
  { r with redirect := alistSet r.redirect host (prHandle (hostRedirect r host) "GET" path t) }

/-- Embedding of `Router.AddService`: `AddRoute(host, "/", t)`. -/
def AddService (r : Router) (host : String) (t : Target) : Router :=
  AddRoute r host "/" t

/-- Embedding of the lookup part of `Router.serveRouteHTTP`: the route
target the request would invoke for table key `host`, i.e.
`r.route[host].Lookup(req.Method, req.URL.Path)`; `none` models the `false`
return. -/
def serveRouteHTTP (r : Router) (req : Request) (host : String) : Option Target :=
  match alistGet? r.route host with
  | none => none
  | some h => prLookup h req.method req.path

/-- Embedding of the lookup part of `Router.serveRedirectHTTP`: the redirect
target the request would invoke for table key `host`. -/
def serveRedirectHTTP (r : Router) (req : Request) (host : String) : Option Target :=
  match alistGet? r.redirect host with
  | none => none
  | some h => prLookup h req.method req.path

/-- The wildcard key `"*" + host[parentHostDot:]` computed by
`Router.ServeHTTP` from the first dot of the host (`strings.IndexByte(host,
'.')`); meaningful only when the host contains a dot. -/
def dispatchWildcardHost (host : String) : String :=
  "*" ++ (host.toList.dropWhile (· ≠ '.')).asString

/-- What `Router.ServeHTTP` did with a request: invoked a redirect handler
found under table key `host`, invoked a route handler, invoked the `notFound`
handler, or returned without writing anything at all. -/
inductive Outcome where
  | redirect (host : String) (t : Target)
  | route (host : String) (t : Target)
  | notFound
  | noResponse
deriving DecidableEq, Repr

/-- Embedding of `Router.ServeHTTP` (`router/router.go` lines 65–88): exact
redirect, exact route, then — only when the host contains a dot — wildcard
redirect and wildcard route; a dotless miss invokes `r.notFound`, a dotted
miss falls off the end of the function. -/
def ServeHTTP (r : Router) (req : Request) : Outcome :=
  let host := req.host
  match serveRedirectHTTP r req host with
  | some t => .redirect host t
  | none =>
  match serveRouteHTTP r req host with
  | some t => .route host t
  | none =>
  if '.' ∈ host.toList then
    let wildcardHost := dispatchWildcardHost host
    match serveRedirectHTTP r req wildcardHost with
    | some t => .redirect wildcardHost t
    | none =>
    match serveRouteHTTP r req wildcardHost with
    | some t => .route wildcardHost t
    | none => .noResponse
  else .notFound

/-- An `http.ResponseWriter` as the dispatch path uses it: the status code
actually sent (`none` while the header is unwritten) and the accumulated
body. -/
structure Response where
  status : Option Nat
  body : String
deriving DecidableEq, Repr

/-- Model of `ResponseWriter.Write` via `fmt.Fprintf`: the first body write
implicitly commits status 200 when `WriteHeader` was never called. -/
def respWrite (rw : Response) (s : String) : Response :=
  { status := some (rw.status.getD 200), body := rw.body ++ s }

/-- Go `http.StatusNotFound`. -/
def httpStatusNotFound : Nat := 404

/-- Go `http.StatusText` restricted to the one code the router uses. -/
def httpStatusText (code : Nat) : String :=
  if code = 404 then "Not Found" else ""

/-- Embedding of the `notFound` handler installed by `router.New()`:
`fmt.Fprintf(rw, "%d %s\n", http.StatusNotFound, http.StatusText(http.StatusNotFound))`
— it writes the body text but never calls `WriteHeader`. -/
def notFoundHandler (rw : Response) : Response :=
  respWrite rw (toString httpStatusNotFound ++ " " ++ httpStatusText httpStatusNotFound ++ "\n")

/-- Modelled from the spec: a favicon image record; its constructor
`CreateFaviconImage` is not under `src/`, and only the source URL field is
observable in the claims and the test (`icons.Svg.Url`). -/
structure FaviconImage where
  url : String
deriving DecidableEq, Repr

/-- Modelled from the spec: `CreateFaviconImage(raw)` wraps the raw source
URL string from the database row. -/
def CreateFaviconImage (source : String) : FaviconImage :=
  ⟨source⟩

/-- Embedding of `favicons.FaviconList`: the icons compiled for one host. -/
structure FaviconList where
  ico : FaviconImage
  png : FaviconImage
  svg : FaviconImage
deriving DecidableEq, Repr

/-- The published favicon table `Favicons.faviconMap`
(`map[string]*FaviconList`, modelled as an association list). -/
abbrev FaviconMap := List (String × FaviconList)

instance {α β : Type} [DecidableEq α] [DecidableEq β] : DecidableEq (Except α β) := fun a b =>
  match a, b with
  | .ok x, .ok y =>
    if h : x = y then isTrue (congrArg Except.ok h)
    else isFalse (fun heq => h (Except.ok.inj heq))
  | .error x, .error y =>
    if h : x = y then isTrue (congrArg Except.error h)
    else isFalse (fun heq => h (Except.error.inj heq))
  | .ok _, .error _ => isFalse (fun heq => Except.noConfusion heq)
  | .error _, .ok _ => isFalse (fun heq => Except.noConfusion heq)

/-- One iteration of `internalCompile`'s row loop: either `query.Scan`
succeeds, yielding the four row strings and the outcome of the row's
`PreProcess` goroutine, or it fails with an error. -/
inductive RowResult where
  | ok (host svg png ico : String) (preprocess : Except String Unit)
  | scanErr (e : String)
deriving DecidableEq, Repr

/-- The outcome of `f.db.Query(...)`: an error or the list of rows. -/
abbrev QueryResult := Except String (List RowResult)

/-- First error returned by the `errgroup.Group.Wait()` over the row
pre-process goroutines (determinized to list order; the claims only depend
on whether some error occurred). -/
def firstErr : List (Except String Unit) → Option String
  | [] => none
  | .error e :: _ => some e
  | .ok _ :: rest => firstErr rest

/-- The row loop of `Favicons.internalCompile`: scan each row, store its
`FaviconList` into the map `m`, and collect the pre-process results; a scan
error aborts immediately, otherwise `g.Wait()` reports the first
pre-process error. Returns the map as mutated so far with the error, if
any. -/
def internalCompileRows (m : FaviconMap) (rows : List RowResult)
    (pending : List (Except String Unit)) : FaviconMap × Option String :=
  match rows with
  | [] => (m, firstErr pending)
  | .scanErr e :: _ => (m, some ("failed to scan row: " ++ e))
  | .ok host svg png ico preprocess :: rest =>
    let l : FaviconList :=
      { ico := CreateFaviconImage ico
        png := CreateFaviconImage png
        svg := CreateFaviconImage svg }
    internalCompileRows (alistSet m host l) rest (pending ++ [preprocess])

/-- Embedding of `Favicons.internalCompile(m)` against a database outcome
`q`: a failed query is an error; otherwise the row loop runs. -/
def internalCompile (m : FaviconMap) (q : QueryResult) : FaviconMap × Option String :=
  match q with
  | .error e => (m, some ("failed to prepare query: " ++ e))
  | .ok rows => internalCompileRows m rows []

/-- Embedding of `Favicons.threadCompile` against a database outcome `q`:
build a brand-new map; on a compile error log and return, leaving the
published map untouched; on success swap the new map in under `cLock`. -/
def threadCompile (current : FaviconMap) (q : QueryResult) : FaviconMap :=
  let favicons : FaviconMap := []
  match internalCompile favicons q with
  | (_, some _) => current
  | (m, none) => m

/-- Embedding of `Favicons.GetIcons`: the published favicon list for the
host, or `nil` (`none`) when absent. -/
def GetIcons (current : FaviconMap) (host : String) : Option FaviconList :=
  alistGet? current host

/-- Analysis predicate: every registration in a per-host path router is
indexed under the GET method. -/
def prAllGET (h : PathRouter) : Bool :=
  h.all fun e => e.1.1 == "GET"

/-- Analysis predicate: every registration in a host table is indexed under
the GET method. -/
def tableAllGET (m : List (String × PathRouter)) : Bool :=
  m.all fun hp => prAllGET hp.2

/-- Analysis predicate: every registration in the router, route and redirect
alike, is indexed under the GET method. -/
def routerAllGET (r : Router) : Bool :=
  tableAllGET r.route && tableAllGET r.redirect

end Violet

namespace Violet

theorem asString_toList (s : String) : s.toList.asString = s := rfl

theorem takeWhile_ne_of_not_mem (c : Char) (l : List Char) (h : c ∉ l) :
    l.takeWhile (· ≠ c) = l := by
  induction l with
  | nil => rfl
  | cons a t ih =>
    simp only [List.mem_cons, not_or] at h
    have hne : a ≠ c := fun hh => h.1 hh.symm
    rw [List.takeWhile_cons, if_pos (decide_eq_true hne), ih h.2]

theorem dropWhile_of_mem (c : Char) (l : List Char) (h : c ∈ l) :
    ∃ t, l.dropWhile (· ≠ c) = c :: t := by
  induction l with
  | nil => cases h
  | cons a t ih =>
    by_cases hac : a = c
    · refine ⟨t, ?_⟩
      rw [List.dropWhile_cons, if_neg ?_, hac]
      rw [decide_eq_false (not_not_intro hac)]
      exact Bool.false_ne_true
    · have hct : c ∈ t := by
        rcases List.mem_cons.mp h with h1 | h1
        · exact absurd h1.symm hac
        · exact h1
      obtain ⟨u, hu⟩ := ih hct
      refine ⟨u, ?_⟩
      rw [List.dropWhile_cons, if_pos (decide_eq_true hac), hu]

theorem splitCharList_ne_nil (sep : Char) (l : List Char) : splitCharList sep l ≠ [] := by
  induction l with
  | nil => simp [splitCharList]
  | cons c rest ih =>
    simp only [splitCharList]
    by_cases h : c = sep
    · simp [h]
    · simp only [h, if_false]
      cases hs : splitCharList sep rest with
      | nil => simp
      | cons g gs => simp

theorem goSplitN2_of_not_mem (sep : Char) (s : String) (h : sep ∉ s.toList) :
    goSplitN2 sep s = [s] := by
  rw [goSplitN2, if_neg h]

theorem goSplitN2_of_mem (sep : Char) (s : String) (h : sep ∈ s.toList) :
    goSplitN2 sep s =
      [(s.toList.takeWhile (· ≠ sep)).asString,
       ((s.toList.dropWhile (· ≠ sep)).drop 1).asString] := by
  rw [goSplitN2, if_pos h]

/-- C10: for every input string, including the empty string, `GetBaseDomain`,
`ReplaceSubdomainWithWildcard` and `GetTopFqdn` return `ok = true`; their
failure branches are unreachable because splitting any string yields at
least one element. -/
theorem domain_utils_total (s : String) :
    (GetBaseDomain s).2 = true ∧ (ReplaceSubdomainWithWildcard s).2 = true ∧
      (GetTopFqdn s).2 = true := by
  have hbase : (GetBaseDomain s).2 = true := by
    by_cases h : '.' ∈ s.toList
    · simp [GetBaseDomain, goSplitN2_of_mem _ _ h]
    · simp [GetBaseDomain, goSplitN2_of_not_mem _ _ h]
  refine ⟨hbase, ?_, ?_⟩
  · simp [ReplaceSubdomainWithWildcard, hbase]
  · have hne := splitCharList_ne_nil '.' s.toList
    by_cases h2 : (goSplit '.' s).length ≥ 2
    · simp [GetTopFqdn, h2]
    · have h0 : (goSplit '.' s).length ≠ 0 := by
        simp only [goSplit, List.length_map]
        intro hlen
        exact hne (List.length_eq_zero.mp hlen)
      have h1 : (goSplit '.' s).length = 1 := by omega
      simp [GetTopFqdn, h2, h1]

/-- C10 witness: evaluation of the three utilities at a concrete input. -/
theorem domain_utils_total_witness :
    (GetBaseDomain "").2 = true ∧ (ReplaceSubdomainWithWildcard "").2 = true ∧
      (GetTopFqdn "").2 = true :=
  domain_utils_total ""

/-- C9 counterexample: on the empty host, `GetDomainWithoutPort` returns
success, so failure does not occur on the empty string (the claim's "if and
only if" direction fails at `""`). -/
theorem getDomainWithoutPort_empty_ok :
    GetDomainWithoutPort "" = ("", true) := by decide

/-- C9 amended: `GetDomainWithoutPort` returns the portion of the host before
the first colon and always succeeds; the failure branch is unreachable. -/
theorem getDomainWithoutPort_never_fails (s : String) :
    GetDomainWithoutPort s = ((s.toList.takeWhile (· ≠ ':')).asString, true) := by
  by_cases h : ':' ∈ s.toList
  · simp [GetDomainWithoutPort, goSplitN2_of_mem _ _ h]
  · rw [GetDomainWithoutPort, goSplitN2_of_not_mem _ _ h,
      takeWhile_ne_of_not_mem _ _ h, asString_toList]
    simp

/-- C9 witness: the amended theorem applied at a concrete host with a
port. -/
theorem getDomainWithoutPort_never_fails_witness :
    GetDomainWithoutPort "a.com:88" =
      ((("a.com:88" : String).toList.takeWhile (· ≠ ':')).asString, true) :=
  getDomainWithoutPort_never_fails "a.com:88"

/-- C8 counterexample: on `"a:b:-1"` the code splits at the first colon and
returns `("a", 0, false)`, not the `("a:b", 0, false)` that splitting on the
last colon would give. -/
theorem splitDomainPort_first_colon_cex :
    SplitDomainPort "a:b:-1" 80 = ("a", 0, false) ∧
      SplitDomainPort "a:b:-1" 80 ≠ ("a:b", 0, false) := by decide

/-- C8 amended: `SplitDomainPort` splits the host on its first colon; with no
colon it returns the full string, the default port and success; with a colon
the domain is the part before the first colon and the port and success flag
are exactly what `strconv.Atoi` yields on the remainder — in particular
negative ports are accepted as valid, and a syntax failure yields port 0 and
failure. -/
theorem splitDomainPort_spec :
    (∀ (host : String) (d : Int), ':' ∉ host.toList →
        SplitDomainPort host d = (host, d, true)) ∧
    (∀ (host : String) (d : Int), ':' ∈ host.toList →
        SplitDomainPort host d =
          ((host.toList.takeWhile (· ≠ ':')).asString,
            (goAtoi ((host.toList.dropWhile (· ≠ ':')).drop 1).asString).1,
            (goAtoi ((host.toList.dropWhile (· ≠ ':')).drop 1).asString).2)) ∧
    SplitDomainPort "x:-5" 80 = ("x", -5, true) ∧
    SplitDomainPort "a:b:1" 80 = ("a", 0, false) := by
  refine ⟨?_, ?_, by decide, by decide⟩
  · intro host d h
    simp [SplitDomainPort, goSplitN2_of_not_mem _ _ h]
  · intro host d h
    simp [SplitDomainPort, goSplitN2_of_mem _ _ h]

/-- C8 witness: the amended theorem applied at concrete inputs. -/
theorem splitDomainPort_spec_witness :
    (':' ∉ ("localhost" : String).toList) ∧
      SplitDomainPort "localhost" 443 = ("localhost", 443, true) :=
  ⟨by decide, splitDomainPort_spec.1 "localhost" 443 (by decide)⟩

/-- C5: `ReplaceSubdomainWithWildcard` strips exactly the leftmost label and
prepends `*.`; the dispatcher's wildcard fallback key agrees with it on
every host containing a dot, so `a.b.example.com` falls back only to
`*.b.example.com`, never to `*.example.com`. -/
theorem wildcard_form :
    ReplaceSubdomainWithWildcard "a.b.com" = ("*.b.com", true) ∧
    ReplaceSubdomainWithWildcard "b.com" = ("*.com", true) ∧
    ReplaceSubdomainWithWildcard "com" = ("*.com", true) ∧
    (∀ H : String, '.' ∈ H.toList →
        dispatchWildcardHost H = (ReplaceSubdomainWithWildcard H).1) ∧
    dispatchWildcardHost "a.b.example.com" = "*.b.example.com" ∧
    dispatchWildcardHost "a.b.example.com" ≠ "*.example.com" := by
  refine ⟨by decide, by decide, by decide, ?_, by decide, by decide⟩
  intro H h
  obtain ⟨t, ht⟩ := dropWhile_of_mem '.' H.toList h
  have hbase : (GetBaseDomain H).1 = ((H.toList.dropWhile (· ≠ '.')).drop 1).asString := by
    simp [GetBaseDomain, goSplitN2_of_mem _ _ h]
  have hr : (ReplaceSubdomainWithWildcard H).1 = "*." ++ t.asString := by
    show "*." ++ (GetBaseDomain H).1 = "*." ++ t.asString
    rw [hbase, ht]
    rfl
  rw [hr, dispatchWildcardHost, ht]
  rfl

/-- C5 witness: the wildcard-agreement part applied at a concrete host. -/
theorem wildcard_form_witness :
    ('.' ∈ ("x.y" : String).toList) ∧
      dispatchWildcardHost "x.y" = (ReplaceSubdomainWithWildcard "x.y").1 :=
  ⟨by decide, wildcard_form.2.2.2.1 "x.y" (by decide)⟩

/-- C1: dispatch precedence — a redirect registered at the exact host wins
over a route at the same host; the exact host wins over the wildcard key for
both kinds; and the full check order is exact redirect, exact route,
wildcard redirect, wildcard route. -/
theorem dispatch_check_order :
    (∀ (r : Router) (req : Request) (tR tV : Target),
        serveRedirectHTTP r req req.host = some tR →
        serveRouteHTTP r req req.host = some tV →
        ServeHTTP r req = .redirect req.host tR ∧
          ServeHTTP r req ≠ .route req.host tV) ∧
    (∀ (r : Router) (req : Request) (t : Target),
        serveRedirectHTTP r req req.host = some t →
        ServeHTTP r req = .redirect req.host t) ∧
    (∀ (r : Router) (req : Request) (t : Target),
        serveRedirectHTTP r req req.host = none →
        serveRouteHTTP r req req.host = some t →
        ServeHTTP r req = .route req.host t) ∧
    (∀ (r : Router) (req : Request) (t : Target),
        serveRedirectHTTP r req req.host = none →
        serveRouteHTTP r req req.host = none →
        '.' ∈ req.host.toList →
        serveRedirectHTTP r req (dispatchWildcardHost req.host) = some t →
        ServeHTTP r req = .redirect (dispatchWildcardHost req.host) t) ∧
    (∀ (r : Router) (req : Request) (t : Target),
        serveRedirectHTTP r req req.host = none →
        serveRouteHTTP r req req.host = none →
        '.' ∈ req.host.toList →
        serveRedirectHTTP r req (dispatchWildcardHost req.host) = none →
        serveRouteHTTP r req (dispatchWildcardHost req.host) = some t →
        ServeHTTP r req = .route (dispatchWildcardHost req.host) t) := by
  refine ⟨?_, ?_, ?_, ?_, ?_⟩
  · intro r req tR tV h1 h2
    constructor <;> simp [ServeHTTP, h1]
  · intro r req t h1
    simp [ServeHTTP, h1]
  · intro r req t h1 h2
    simp [ServeHTTP, h1, h2]
  · intro r req t h1 h2 h3 h4
    have h3' : '.' ∈ req.host.data := h3
    simp [ServeHTTP, h1, h2, h3', h4]
  · intro r req t h1 h2 h3 h4 h5
    have h3' : '.' ∈ req.host.data := h3
    simp [ServeHTTP, h1, h2, h3', h4, h5]

/-- C1 witness: with both a route and a redirect registered at
`(example.com, /)`, dispatch invokes the redirect target. -/
theorem dispatch_check_order_witness :
    serveRedirectHTTP (AddRedirect (AddRoute RouterNew "example.com" "/" 1) "example.com" "/" 2)
        ⟨"example.com", "GET", "/"⟩ "example.com" = some 2 ∧
      ServeHTTP (AddRedirect (AddRoute RouterNew "example.com" "/" 1) "example.com" "/" 2)
        ⟨"example.com", "GET", "/"⟩ = .redirect "example.com" 2 := by
  refine ⟨by decide, ?_⟩
  exact (dispatch_check_order.1 _ ⟨"example.com", "GET", "/"⟩ 2 1 (by decide) (by decide)).1

/-- C6: a request whose host has no dot and matches neither exact table is
answered by the `notFound` handler, with no wildcard lookup attempted. -/
theorem noDot_miss_notFound :
    ∀ (r : Router) (req : Request),
      '.' ∉ req.host.toList →
      serveRedirectHTTP r req req.host = none →
      serveRouteHTTP r req req.host = none →
      ServeHTTP r req = .notFound := by
  intro r req h1 h2 h3
  have h1' : '.' ∉ req.host.data := h1
  simp [ServeHTTP, h2, h3, h1']

/-- C6 witness: a dotless host misses on a router whose tables are not
empty. -/
theorem noDot_miss_notFound_witness :
    ('.' ∉ ("localhost" : String).toList) ∧
      ServeHTTP (AddRoute (AddRedirect RouterNew "*.com" "/" 7) "*" "/" 8)
        ⟨"localhost", "GET", "/"⟩ = .notFound :=
  ⟨by decide, noDot_miss_notFound _ _ (by decide) (by decide) (by decide)⟩

/-- C2 (code bug): when the host contains a dot and all four lookups miss,
`ServeHTTP` falls off the end of the function without invoking any handler —
the `notFound` handler is never reached, so no 404 (indeed no response at
all) is written. -/
theorem dotted_miss_no_response :
    ∀ (r : Router) (req : Request),
      '.' ∈ req.host.toList →
      serveRedirectHTTP r req req.host = none →
      serveRouteHTTP r req req.host = none →
      serveRedirectHTTP r req (dispatchWildcardHost req.host) = none →
      serveRouteHTTP r req (dispatchWildcardHost req.host) = none →
      ServeHTTP r req = .noResponse ∧ ServeHTTP r req ≠ .notFound := by
  intro r req h1 h2 h3 h4 h5
  have h1' : '.' ∈ req.host.data := h1
  constructor <;> simp [ServeHTTP, h1', h2, h3, h4, h5]

/-- C2 witness: an unmatched dotted host on a non-empty router produces no
response. -/
theorem dotted_miss_no_response_witness :
    ('.' ∈ ("a.com" : String).toList) ∧
      ServeHTTP (AddRoute (AddRedirect RouterNew "other.com" "/x" 7) "other.com" "/y" 8)
        ⟨"a.com", "GET", "/"⟩ = .noResponse :=
  ⟨by decide,
    (dotted_miss_no_response _ _ (by decide) (by decide) (by decide) (by decide) (by decide)).1⟩

/-- C4 (code bug): a dotless miss does reach the `notFound` handler, but the
handler writes `"404 Not Found\n"` as body without ever calling
`WriteHeader`, so the HTTP status is the implicit 200, not 404, and the body
carries a trailing newline. -/
theorem notFound_handler_response :
    ServeHTTP RouterNew ⟨"localhost", "GET", "/"⟩ = .notFound ∧
    notFoundHandler ⟨none, ""⟩ = ⟨some 200, "404 Not Found\n"⟩ ∧
    (notFoundHandler ⟨none, ""⟩).status ≠ some 404 ∧
    (notFoundHandler ⟨none, ""⟩).body ≠ "404 Not Found" := by
  exact ⟨by decide, by decide, by decide, by decide⟩

/-- C7 counterexample: with `(example.com, /)` registered as a route, a POST
request to that exact host and path does not invoke the target — the lookup
uses the request's method, and the table holds only GET registrations. -/
theorem nonGet_request_cex :
    ServeHTTP (AddRoute RouterNew "example.com" "/" 5) ⟨"example.com", "POST", "/"⟩
        = .noResponse ∧
      ServeHTTP (AddRoute RouterNew "example.com" "/" 5) ⟨"example.com", "POST", "/"⟩
        ≠ .route "example.com" 5 := by decide

end Violet

namespace Violet

theorem alistGet?_mem {α : Type} (m : List (String × α)) (k : String) (v : α)
    (h : alistGet? m k = some v) : ∃ e ∈ m, e.2 = v := by
  rw [alistGet?] at h
  cases hf : m.find? (fun e => e.1 == k) with
  | none => rw [hf] at h; cases h
  | some e =>
    rw [hf] at h
    exact ⟨e, List.mem_of_find?_eq_some hf, Option.some.inj h⟩

theorem prAllGET_lookup_none (h : PathRouter) (hall : prAllGET h = true)
    (method path : String) (hm : method ≠ "GET") : prLookup h method path = none := by
  rw [prLookup, List.find?_eq_none.mpr]
  · rfl
  · intro e he
    have hg := List.all_eq_true.mp hall e he
    simp only [beq_iff_eq] at hg
    simp only [Bool.and_eq_true, beq_iff_eq, not_and]
    intro h1 _
    exact hm (h1 ▸ hg)

theorem serveRouteHTTP_nonGet (r : Router) (req : Request) (host : String)
    (hall : tableAllGET r.route = true) (hm : req.method ≠ "GET") :
    serveRouteHTTP r req host = none := by
  rw [serveRouteHTTP]
  cases hq : alistGet? r.route host with
  | none => rfl
  | some h =>
    obtain ⟨e, hmem, hv⟩ := alistGet?_mem _ _ _ hq
    have := List.all_eq_true.mp hall e hmem
    exact prAllGET_lookup_none h (hv ▸ this) _ _ hm

theorem serveRedirectHTTP_nonGet (r : Router) (req : Request) (host : String)
    (hall : tableAllGET r.redirect = true) (hm : req.method ≠ "GET") :
    serveRedirectHTTP r req host = none := by
  rw [serveRedirectHTTP]
  cases hq : alistGet? r.redirect host with
  | none => rfl
  | some h =>
    obtain ⟨e, hmem, hv⟩ := alistGet?_mem _ _ _ hq
    have := List.all_eq_true.mp hall e hmem
    exact prAllGET_lookup_none h (hv ▸ this) _ _ hm

theorem tableAllGET_set (m : List (String × PathRouter)) (k : String) (h : PathRouter)
    (hm : tableAllGET m = true) (hh : prAllGET h = true) :
    tableAllGET (alistSet m k h) = true := by
  induction m with
  | nil => simp [alistSet, tableAllGET, hh]
  | cons e rest ih =>
    cases e with
    | mk k' v' =>
      simp only [tableAllGET, List.all_cons, Bool.and_eq_true] at hm
      obtain ⟨he, hrest⟩ := hm
      rw [alistSet]
      by_cases hk : (k' == k) = true
      · simp [hk, tableAllGET, List.all_cons, hh, hrest]
      · simp only [hk, if_false]
        have h2 := ih hrest
        show tableAllGET ((k', v') :: alistSet rest k h) = true
        simp only [tableAllGET, List.all_cons, Bool.and_eq_true]
        exact ⟨he, h2⟩

theorem prHandle_allGET (h : PathRouter) (path : String) (t : Target)
    (hh : prAllGET h = true) : prAllGET (prHandle h "GET" path t) = true := by
  simp [prHandle, prAllGET, List.all_append]
  simpa [prAllGET] using hh

theorem hostRoute_allGET (r : Router) (host : String)
    (hall : tableAllGET r.route = true) : prAllGET (hostRoute r host) = true := by
  rw [hostRoute]
  cases hq : alistGet? r.route host with
  | none => rfl
  | some h =>
    obtain ⟨e, hmem, hv⟩ := alistGet?_mem _ _ _ hq
    have := List.all_eq_true.mp hall e hmem
    simpa [hv] using this

theorem hostRedirect_allGET (r : Router) (host : String)
    (hall : tableAllGET r.redirect = true) : prAllGET (hostRedirect r host) = true := by
  rw [hostRedirect]
  cases hq : alistGet? r.redirect host with
  | none => rfl
  | some h =>
    obtain ⟨e, hmem, hv⟩ := alistGet?_mem _ _ _ hq
    have := List.all_eq_true.mp hall e hmem
    simpa [hv] using this

/-- C7 amended: `AddRoute` and `AddRedirect` register every target only under
the GET method, but lookup uses the request's actual method: a request whose
method is not GET never matches any registration and falls through —
reaching the `notFound` handler when its host has no dot, and producing no
response otherwise. -/
theorem get_only_registration :
    (routerAllGET RouterNew = true) ∧
    (∀ (r : Router) (host path : String) (t : Target),
        routerAllGET r = true → routerAllGET (AddRoute r host path t) = true) ∧
    (∀ (r : Router) (host path : String) (t : Target),
        routerAllGET r = true → routerAllGET (AddRedirect r host path t) = true) ∧
    (∀ (r : Router) (req : Request),
        routerAllGET r = true → req.method ≠ "GET" →
        ServeHTTP r req = .notFound ∨ ServeHTTP r req = .noResponse) := by
  refine ⟨by decide, ?_, ?_, ?_⟩
  · intro r host path t hall
    simp only [routerAllGET, Bool.and_eq_true] at hall
    simp only [AddRoute, routerAllGET, Bool.and_eq_true]
    exact ⟨tableAllGET_set _ _ _ hall.1
      (prHandle_allGET _ _ _ (hostRoute_allGET r host hall.1)), hall.2⟩
  · intro r host path t hall
    simp only [routerAllGET, Bool.and_eq_true] at hall
    simp only [AddRedirect, routerAllGET, Bool.and_eq_true]
    exact ⟨hall.1, tableAllGET_set _ _ _ hall.2
      (prHandle_allGET _ _ _ (hostRedirect_allGET r host hall.2))⟩
  · intro r req hall hm
    simp only [routerAllGET, Bool.and_eq_true] at hall
    have h2 := serveRedirectHTTP_nonGet r req req.host hall.2 hm
    have h3 := serveRouteHTTP_nonGet r req req.host hall.1 hm
    by_cases hdot : '.' ∈ req.host.toList
    · right
      have h4 := serveRedirectHTTP_nonGet r req (dispatchWildcardHost req.host) hall.2 hm
      have h5 := serveRouteHTTP_nonGet r req (dispatchWildcardHost req.host) hall.1 hm
      have hdot' : '.' ∈ req.host.data := hdot
      simp [ServeHTTP, h2, h3, h4, h5, hdot']
    · left
      have hdot' : '.' ∉ req.host.data := hdot
      simp [ServeHTTP, h2, h3, hdot']

/-- C7 witness: the amended theorem applied to a router holding one GET
route, with a POST request to the registered host and path. -/
theorem get_only_registration_witness :
    (routerAllGET (AddRoute RouterNew "example.com" "/" 5) = true) ∧
      (ServeHTTP (AddRoute RouterNew "example.com" "/" 5) ⟨"example.com", "POST", "/"⟩
          = .notFound ∨
        ServeHTTP (AddRoute RouterNew "example.com" "/" 5) ⟨"example.com", "POST", "/"⟩
          = .noResponse) :=
  ⟨by decide, get_only_registration.2.2.2 _ _ (by decide) (by decide)⟩

/-- C3: rebuild failure atomicity — when the rebuild's compile step fails
(query error, scan error, or pre-process error), `threadCompile` leaves the
published favicon map unchanged, so every `GetIcons` read afterwards returns
exactly the pre-failure snapshot's data. -/
theorem rebuild_failure_atomic :
    ∀ (current : FaviconMap) (q : QueryResult) (e : String),
      (internalCompile [] q).2 = some e →
      threadCompile current q = current ∧
      ∀ host, GetIcons (threadCompile current q) host = GetIcons current host := by
  intro current q e h
  have hkeep : threadCompile current q = current := by
    show (match internalCompile [] q with
      | (_, some _) => current
      | (m, none) => m) = current
    cases hq : internalCompile [] q with
    | mk m err =>
      rw [hq] at h
      cases err with
      | none => simp at h
      | some e' => rfl
  exact ⟨hkeep, fun host => by rw [hkeep]⟩

/-- C3 witness: a failing storage query leaves a concrete published snapshot
readable unchanged. -/
theorem rebuild_failure_atomic_witness :
    ((internalCompile [] (Except.error "db closed" : QueryResult)).2 =
        some "failed to prepare query: db closed") ∧
      GetIcons (threadCompile
          [("example.com", ⟨CreateFaviconImage "i", CreateFaviconImage "p",
            CreateFaviconImage "s"⟩)] (Except.error "db closed")) "example.com" =
        GetIcons [("example.com", ⟨CreateFaviconImage "i", CreateFaviconImage "p",
            CreateFaviconImage "s"⟩)] "example.com" :=
  ⟨by decide,
    (rebuild_failure_atomic _ _ "failed to prepare query: db closed" (by decide)).2 "example.com"⟩

example : SplitDomainPort "example.com:8080" 80 = ("example.com", 8080, true) := by decide
example : SplitDomainPort "example.com" 80 = ("example.com", 80, true) := by decide
example : SplitDomainPort "a:b:1" 80 = ("a", 0, false) := by decide
example : SplitDomainPort "x:-5" 80 = ("x", -5, true) := by decide
example : GetDomainWithoutPort "" = ("", true) := by decide
example : GetDomainWithoutPort "a.com:88" = ("a.com", true) := by decide
example : GetBaseDomain "a.b.com" = ("b.com", true) := by decide
example : ReplaceSubdomainWithWildcard "a.b.com" = ("*.b.com", true) := by decide
example : ReplaceSubdomainWithWildcard "com" = ("*.com", true) := by decide
example : GetTopFqdn "a.b.example.com" = ("example.com", true) := by decide
example : GetTopFqdn "localhost" = ("localhost", true) := by decide

example :
    ServeHTTP (AddRedirect (AddRoute RouterNew "example.com" "/" 1) "example.com" "/" 2)
      ⟨"example.com", "GET", "/"⟩ = .redirect "example.com" 2 := by decide
example :
    ServeHTTP (AddRoute RouterNew "*.example.com" "/" 3)
      ⟨"shop.example.com", "GET", "/"⟩ = .route "*.example.com" 3 := by decide
example :
    ServeHTTP (AddRoute RouterNew "*.example.com" "/" 3)
      ⟨"a.b.example.com", "GET", "/"⟩ = .noResponse := by decide
example :
    ServeHTTP RouterNew ⟨"localhost", "GET", "/"⟩ = .notFound := by decide
example :
    ServeHTTP (AddRoute RouterNew "example.com" "/" 5) ⟨"example.com", "POST", "/"⟩
      = .noResponse := by decide
example : dispatchWildcardHost "a.b.example.com" = "*.b.example.com" := by decide
example : notFoundHandler ⟨none, ""⟩ = ⟨some 200, "404 Not Found\n"⟩ := by decide

end Violet
